import Mathlib

/-!
Verification of the tempo-practice calculator and metronome engine
(`tempo-calculator.js`, `src/core/PrecisionTimer.ts`, MetronomeUI).
JavaScript numbers are modelled as exact rationals (ℚ); integer-valued
counters are modelled as ℤ.  Fallible code returns `Except`.
-/

/-- Input parameters of the practice-time calculator
(`PracticeParams` in `PrecisionTimer.ts`). -/
structure PracticeParams where
  a : ℚ
  b : ℚ
  s : ℚ
  B : ℚ
  R : ℚ
  N : ℚ
deriving DecidableEq

/-- The four distinguishable validation failures thrown by
`calculateTempoPracticeTime`, in source order. -/
inductive CalcError where
  | nonPositiveStep
  | nonPositiveTempo
  | startNotBelowTarget
  | nonPositiveCount
deriving DecidableEq

/-- The `results` part of the returned object. -/
structure PracticeResults where
  exactSeconds : ℚ
  approxSeconds : ℚ
  errorRate : ℚ
deriving DecidableEq

/-- The `metadata` part of the returned object. -/
structure PracticeMetadata where
  nSteps : ℤ
  actualEndTempo : ℚ
  totalBeatsPerStep : ℚ
  timeConstantC : ℚ
  inputParams : PracticeParams
deriving DecidableEq

/-- The full return value of `calculateTempoPracticeTime`. -/
structure CalculationResult where
  results : PracticeResults
  metadata : PracticeMetadata
deriving DecidableEq

/-- One iteration of the loop body of `kahanSum`: state is
`(sum, compensation)`, the incoming value is `x`. -/
def kahanStep : ℚ × ℚ → ℚ → ℚ × ℚ :=
  fun sc x =>
    let y := x - sc.2
    let t := sc.1 + y
    (t, (t - sc.1) - y)

/-- Embeds `kahanSum(numbers)`: compensated summation, folding `kahanStep` over
the list starting from sum `0`, compensation `0`. -/
def kahanSum (numbers : List ℚ) : ℚ :=
  (numbers.foldl kahanStep (0, 0)).1

/-- Embeds `const K = B * R` — beats played per tempo step. -/
def calcK (p : PracticeParams) : ℚ := p.B * p.R

/-- Embeds `const n = Math.floor((b - a) / s)` — number of step increments. -/
def calcN (p : PracticeParams) : ℤ := ⌊(p.b - p.a) / p.s⌋

/-- Embeds `const bPrime = a + n * s` — actual last tempo reached. -/
def calcBPrime (p : PracticeParams) : ℚ := p.a + (calcN p : ℚ) * p.s

/-- Embeds `const C = 60 * K` — the time constant. -/
def calcC (p : PracticeParams) : ℚ := 60 * calcK p

/-- The `stepTimes` array built by the loop `for (k = 0; k <= n; k++)
stepTimes.push(C / (a + s * k))`: `(n+1).toNat` iterations, matching the
loop (which runs zero times when `n < 0`). -/
def stepTimes (p : PracticeParams) : List ℚ :=
  (List.range (calcN p + 1).toNat).map (fun k : ℕ => calcC p / (p.a + p.s * (k : ℚ)))

/-- Embeds `totalExact = kahanSum(stepTimes) * N`. -/
def totalExact (p : PracticeParams) : ℚ := kahanSum (stepTimes p) * p.N

/-- Embeds `const S = a + bPrime`. -/
def calcS (p : PracticeParams) : ℚ := p.a + calcBPrime p

/-- Embeds `const P = a * bPrime`. -/
def calcP (p : PracticeParams) : ℚ := p.a * calcBPrime p

/-- Embeds `termIntegral = (4 * n * S) / (S * S + 4 * P)`. -/
def termIntegral (p : PracticeParams) : ℚ :=
  (4 * (calcN p : ℚ) * calcS p) / (calcS p * calcS p + 4 * calcP p)

/-- Embeds `termCorrection = S / (2 * P)`. -/
def termCorrection (p : PracticeParams) : ℚ :=
  calcS p / (2 * calcP p)

/-- Embeds `totalApprox = (C * (termIntegral + termCorrection)) * N`. -/
def totalApprox (p : PracticeParams) : ℚ :=
  calcC p * (termIntegral p + termCorrection p) * p.N

/-- Embeds `errorRate = ((totalApprox - totalExact) / totalExact) * 100`. -/
def calcErrorRate (p : PracticeParams) : ℚ :=
  (totalApprox p - totalExact p) / totalExact p * 100

/-- Embeds `calculateTempoPracticeTime(params)`: the four validation guards in
source order, then the computed result object. -/
def calculateTempoPracticeTime (p : PracticeParams) :
    Except CalcError CalculationResult :=
  if p.s ≤ 0 then .error .nonPositiveStep
  else if p.a ≤ 0 ∨ p.b ≤ 0 then .error .nonPositiveTempo
  else if p.b ≤ p.a then .error .startNotBelowTarget
  else if p.B ≤ 0 ∨ p.R ≤ 0 ∨ p.N ≤ 0 then .error .nonPositiveCount
  else .ok
    { results :=
        { exactSeconds := totalExact p
          approxSeconds := totalApprox p
          errorRate := calcErrorRate p }
      metadata :=
        { nSteps := calcN p
          actualEndTempo := calcBPrime p
          totalBeatsPerStep := calcK p
          timeConstantC := calcC p
          inputParams := p } }

/-- The conjunction of the constraints that the validation guards accept:
`s > 0`, `a > 0`, `b > 0`, `a < b`, `B > 0`, `R > 0`, `N > 0`. -/
def validParams (p : PracticeParams) : Prop :=
  0 < p.s ∧ 0 < p.a ∧ 0 < p.b ∧ p.a < p.b ∧ 0 < p.B ∧ 0 < p.R ∧ 0 < p.N

instance (p : PracticeParams) : Decidable (validParams p) := by
  unfold validParams
  infer_instance

/-- Embeds `Math.min` on rationals. -/
def jsMin (x y : ℚ) : ℚ := if x ≤ y then x else y

/-- Embeds `Math.max` on rationals. -/
def jsMax (x y : ℚ) : ℚ := if x ≤ y then y else x

/-- The mutable fields of the `Metronome` class that the scheduling loop
and the setters touch (audio nodes and UI-only fields are omitted). -/
structure MetroState where
  isPlaying : Bool
  currentBeatInBar : ℤ
  currentSubdivision : ℤ
  beatsPerBar : ℤ
  subdivision : ℤ
  tempo : ℚ
  lookahead : ℚ
  scheduleAheadTime : ℚ
  nextNoteTime : ℚ
  progressionEnabled : Bool
  progressionStep : ℚ
  progressionBars : ℤ
  targetTempo : ℚ
  barCount : ℤ
deriving DecidableEq

namespace Metronome

/-- The `Metronome` constructor's initial field values. -/
def init : MetroState where
  isPlaying := false
  currentBeatInBar := 0
  currentSubdivision := 0
  beatsPerBar := 4
  subdivision := 1
  tempo := 120
  lookahead := 25
  scheduleAheadTime := 1/10
  nextNoteTime := 0
  progressionEnabled := false
  progressionStep := 5
  progressionBars := 8
  targetTempo := 180
  barCount := 0

/-- Embeds `nextNote()`: advance `nextNoteTime` by `(60/tempo)/subdivision`, then
step the subdivision counter, the beat-in-bar counter, and (on bar
completion with progression enabled) the bar counter and tempo. -/
def nextNote (m : MetroState) : MetroState :=
  let nextTime := m.nextNoteTime + 60 / m.tempo / (m.subdivision : ℚ)
  let cs := m.currentSubdivision + 1
  if m.subdivision ≤ cs then
    let cb := m.currentBeatInBar + 1
    if m.beatsPerBar ≤ cb then
      if m.progressionEnabled then
        let bc := m.barCount + 1
        if m.progressionBars ≤ bc ∧ m.tempo < m.targetTempo then
          { m with nextNoteTime := nextTime, currentSubdivision := 0,
                   currentBeatInBar := 0, barCount := 0,
                   tempo := jsMin (m.tempo + m.progressionStep) m.targetTempo }
        else
          { m with nextNoteTime := nextTime, currentSubdivision := 0,
                   currentBeatInBar := 0, barCount := bc }
      else
        { m with nextNoteTime := nextTime, currentSubdivision := 0,
                 currentBeatInBar := 0 }
    else
      { m with nextNoteTime := nextTime, currentSubdivision := 0,
               currentBeatInBar := cb }
  else
    { m with nextNoteTime := nextTime, currentSubdivision := cs }

/-- Embeds `setTempo(bpm)`. -/
def setTempo (m : MetroState) (bpm : ℚ) : MetroState := { m with tempo := bpm }

/-- Embeds `setBeatsPerBar(beats)`. -/
def setBeatsPerBar (m : MetroState) (beats : ℤ) : MetroState :=
  { m with beatsPerBar := beats }

/-- Embeds `setSubdivision(value)`. -/
def setSubdivision (m : MetroState) (value : ℤ) : MetroState :=
  { m with subdivision := value }

/-- Embeds `_startPlayback()` at audio-clock time `t`: counters reset, playing,
`nextNoteTime = t + 0.1`. -/
def startPlayback (m : MetroState) (t : ℚ) : MetroState :=
  { m with isPlaying := true, currentBeatInBar := 0, currentSubdivision := 0,
           nextNoteTime := t + 1/10 }

/-- Embeds `start()` at audio-clock time `t`: a no-op while playing. -/
def start (m : MetroState) (t : ℚ) : MetroState :=
  if m.isPlaying then m else startPlayback m t

/-- Embeds `stop()`. -/
def stop (m : MetroState) : MetroState := { m with isPlaying := false }

end Metronome

/-- One engine operation: a scheduling step or a UI-driven call. -/
inductive MOp where
  | next
  | setTempoOp (bpm : ℚ)
  | setBeatsOp (v : ℤ)
  | setSubOp (v : ℤ)
  | startOp (t : ℚ)
  | stopOp
deriving DecidableEq

/-- Apply one operation to the engine state. -/
def applyOp (m : MetroState) : MOp → MetroState
  | .next => Metronome.nextNote m
  | .setTempoOp q => Metronome.setTempo m q
  | .setBeatsOp v => Metronome.setBeatsPerBar m v
  | .setSubOp v => Metronome.setSubdivision m v
  | .startOp t => Metronome.start m t
  | .stopOp => Metronome.stop m

/-- Apply a sequence of operations. -/
def runOps (m : MetroState) : List MOp → MetroState
  | [] => m
  | op :: ops => runOps (applyOp m op) ops

/-- The counter/tempo invariants of the engine state. -/
def MetroInv (m : MetroState) : Prop :=
  0 ≤ m.currentSubdivision ∧ m.currentSubdivision < m.subdivision ∧
  0 ≤ m.currentBeatInBar ∧
  (0 < m.beatsPerBar → m.currentBeatInBar < m.beatsPerBar) ∧
  0 < m.tempo ∧ 0 < m.progressionStep

instance (m : MetroState) : Decidable (MetroInv m) := by
  unfold MetroInv
  infer_instance

/-- Side condition under which one operation preserves the invariants:
`setTempo` gets a positive tempo, `setSubdivision` a value above the current
subdivision counter, `setBeatsPerBar` a value that is non-positive or above
the current beat counter; the rest are unrestricted. -/
def okOp (m : MetroState) : MOp → Bool
  | .setTempoOp bpm => decide (0 < bpm)
  | .setSubOp v => decide (m.currentSubdivision < v)
  | .setBeatsOp v => decide (0 < v → m.currentBeatInBar < v)
  | _ => true

/-- The side condition along a whole run. -/
def okRun (m : MetroState) : List MOp → Bool
  | [] => true
  | op :: ops => okOp m op && okRun (applyOp m op) ops

/-- The engine configured as in the progression scenario (`step=5`,
`bars=2`, `target=140`, default tempo 120, 4 beats per bar, subdivision 1)
and started at audio-clock time 0. -/
def progState : MetroState :=
  Metronome.start
    { Metronome.init with progressionEnabled := true, progressionStep := 5,
                          progressionBars := 2, targetTempo := 140 } 0

/-- The per-note data computed at the top of `scheduleNote(beatNumber,
subdivisionNumber, time)`. -/
structure ScheduledNote where
  beatNumber : ℤ
  subdivisionNumber : ℤ
  time : ℚ
  isMainBeat : Bool
  isAccent : Bool
deriving DecidableEq

/-- Embeds `scheduleNote`: a note is a main beat when the subdivision counter is 0,
and accented when it is also beat 0 of the bar and `beatsPerBar > 0`. -/
def scheduleNote (m : MetroState) (beatNumber subdivisionNumber : ℤ)
    (time : ℚ) : ScheduledNote :=
  let isMainBeat := subdivisionNumber == 0
  let isAccent := beatNumber == 0 && decide (0 < m.beatsPerBar) && isMainBeat
  { beatNumber := beatNumber, subdivisionNumber := subdivisionNumber,
    time := time, isMainBeat := isMainBeat, isAccent := isAccent }

/-- The `scheduler()` while-loop: as long as `nextNoteTime` is inside the
look-ahead window, emit the note for the current counters and advance via
`nextNote` (fuel bounds the number of iterations). -/
def scheduler (m : MetroState) (currentTime : ℚ) : ℕ → List ScheduledNote
  | 0 => []
  | fuel + 1 =>
    if m.nextNoteTime < currentTime + m.scheduleAheadTime then
      scheduleNote m m.currentBeatInBar m.currentSubdivision m.nextNoteTime ::
        scheduler (Metronome.nextNote m) currentTime fuel
    else []

/-- Embeds `Math.round` on rationals: round half up. -/
def jsRound (q : ℚ) : ℤ := ⌊q + 1/2⌋

/-- The consecutive inter-tap intervals `tapTimes[i] - tapTimes[i-1]`. -/
def diffsInt : List ℤ → List ℤ
  | a :: b :: rest => (b - a) :: diffsInt (b :: rest)
  | _ => []

/-- The updated tap history for a tap at `now`: reset when the gap since
the previous tap exceeds `TAP_TIMEOUT = 2000` ms, push the new timestamp,
and shift the oldest one out when more than 4 are held. -/
def tapHistory (ts : List ℤ) (now : ℤ) : List ℤ :=
  let ts1 := match ts.getLast? with
    | some last => if 2000 < now - last then [] else ts
    | none => ts
  let ts2 := ts1 ++ [now]
  if 4 < ts2.length then ts2.tail else ts2

/-- Embeds `Math.round(60000 / avgInterval)` where `avgInterval` is the mean of
the inter-tap intervals. -/
def tapBpm (ts : List ℤ) : ℤ :=
  jsRound ((60000 : ℚ) / (((diffsInt ts).sum : ℚ) / ((diffsInt ts).length : ℚ)))

/-- One run of the tap-button handler in `tempo-calculator.js`
(`setupMetronome`): state is `(tapTimes, tempo)`; with at least two stored
taps the new tempo is the estimate clamped into 30–250 by `updateTempo`. -/
def tapStep (st : List ℤ × ℤ) (now : ℤ) : List ℤ × ℤ :=
  let ts3 := tapHistory st.1 now
  if 2 ≤ ts3.length then (ts3, min (max (tapBpm ts3) 30) 250)
  else (ts3, st.2)

/-- One run of the tap-button handler in `MetronomeUI.setupTapTempo`
(TypeScript variant): the estimate is applied (through the clamping
`updateTempo`) only when it already lies within 30–250; otherwise the
tempo is left unchanged. -/
def tapStepUI (st : List ℤ × ℤ) (now : ℤ) : List ℤ × ℤ :=
  let ts3 := tapHistory st.1 now
  if 2 ≤ ts3.length then
    if 30 ≤ tapBpm ts3 ∧ tapBpm ts3 ≤ 250 then
      (ts3, min (max (tapBpm ts3) 30) 250)
    else (ts3, st.2)
  else (ts3, st.2)

/-- In exact arithmetic one `kahanStep` with zero compensation is a plain
addition and leaves the compensation at zero. -/
lemma kahanStep_zero_comp (s x : ℚ) : kahanStep (s, 0) x = (s + x, 0) := by
  simp [kahanStep]

/-- Folding `kahanStep` from `(s, 0)` adds up the list and keeps the
compensation at zero. -/
lemma foldl_kahanStep (l : List ℚ) (s : ℚ) :
    l.foldl kahanStep (s, 0) = (s + l.sum, 0) := by
  induction l generalizing s with
  | nil => simp
  | cons x xs ih =>
      rw [List.foldl_cons, kahanStep_zero_comp, ih, List.sum_cons]
      rw [add_assoc]

/-- The value of `kahanSum` on any list is the plain sum of the list. -/
lemma kahanSum_eq_sum (l : List ℚ) : kahanSum l = l.sum := by
  rw [kahanSum, foldl_kahanStep, zero_add]

/-- Summing a map over `List.range` is the corresponding `Finset.range` sum. -/
lemma sum_map_range (f : ℕ → ℚ) (n : ℕ) :
    ((List.range n).map f).sum = ∑ k ∈ Finset.range n, f k := by
  induction n with
  | zero => simp
  | succ m ih => simp [List.range_succ, Finset.sum_range_succ, ih]

/-- On parameters passing validation, `calculateTempoPracticeTime` returns
the computed result object. -/
lemma calc_ok (p : PracticeParams) (hp : validParams p) :
    calculateTempoPracticeTime p = .ok
      { results :=
          { exactSeconds := totalExact p
            approxSeconds := totalApprox p
            errorRate := calcErrorRate p }
        metadata :=
          { nSteps := calcN p
            actualEndTempo := calcBPrime p
            totalBeatsPerStep := calcK p
            timeConstantC := calcC p
            inputParams := p } } := by
  obtain ⟨hs, ha, hb, hab, hB, hR, hN⟩ := hp
  unfold calculateTempoPracticeTime
  split_ifs with h1 h2 h3 h4
  · linarith
  · rcases h2 with h | h <;> linarith
  · linarith
  · rcases h4 with h | h | h <;> linarith
  · rfl

/-- On parameters passing validation, `n = ⌊(b-a)/s⌋ ≥ 0`. -/
lemma calcN_nonneg (p : PracticeParams) (hp : validParams p) : 0 ≤ calcN p := by
  obtain ⟨hs, ha, hb, hab, _⟩ := hp
  exact Int.floor_nonneg.mpr (div_nonneg (by linarith) hs.le)

/-- On parameters passing validation, the loop count `(n+1).toNat` is
`n.toNat + 1`. -/
lemma stepCount_eq (p : PracticeParams) (hp : validParams p) :
    (calcN p + 1).toNat = (calcN p).toNat + 1 := by
  have := calcN_nonneg p hp
  omega

/-- C3: the per-step times are summed by compensated (Kahan) summation —
`kahanSum` folds a running sum and compensation through `kahanStep` — and
over exact arithmetic this equals the naive left-fold sum of the same list,
with the compensation term ending at zero. -/
theorem kahanSum_refines_naive_sum (l : List ℚ) :
    kahanSum l = l.foldl (· + ·) 0 ∧ (l.foldl kahanStep (0, 0)).2 = 0 := by
  constructor
  · rw [kahanSum_eq_sum, List.sum_eq_foldl]
  · rw [foldl_kahanStep]

/-- C1: on every validated input, `exactSeconds` equals
`N * Σ_{k=0..n} C/(a + s*k)` with `K = B*R`, `n = ⌊(b-a)/s⌋`, `C = 60*K`. -/
theorem calc_exactSeconds_eq (p : PracticeParams) (hp : validParams p) :
    ∃ r, calculateTempoPracticeTime p = .ok r ∧
      r.results.exactSeconds =
        p.N * ∑ k ∈ Finset.range ((calcN p).toNat + 1),
          60 * (p.B * p.R) / (p.a + p.s * (k : ℚ)) := by
  refine ⟨_, calc_ok p hp, ?_⟩
  show totalExact p = _
  rw [totalExact, kahanSum_eq_sum, stepTimes, stepCount_eq p hp, sum_map_range]
  rw [mul_comm]
  rfl

/-- Witness for C1 at the concrete scenario `a=60, b=120, s=10, B=4, R=2,
N=1`: validation passes and `exactSeconds = 480/60 + ... + 480/120`. -/
theorem calc_exactSeconds_eq_witness :
    validParams ⟨60, 120, 10, 4, 2, 1⟩ ∧
    ∃ r, calculateTempoPracticeTime ⟨60, 120, 10, 4, 2, 1⟩ = .ok r ∧
      r.results.exactSeconds =
        480/60 + 480/70 + 480/80 + 480/90 + 480/100 + 480/110 + 480/120 := by
  have hv : validParams ⟨60, 120, 10, 4, 2, 1⟩ := by decide
  obtain ⟨r, hr, he⟩ := calc_exactSeconds_eq ⟨60, 120, 10, 4, 2, 1⟩ hv
  refine ⟨hv, r, hr, ?_⟩
  rw [he]
  have hn : (calcN ⟨60, 120, 10, 4, 2, 1⟩).toNat + 1 = 7 := by
    have h6 : calcN ⟨60, 120, 10, 4, 2, 1⟩ = 6 := by norm_num [calcN]
    rw [h6]
    rfl
  rw [hn]
  norm_num [Finset.sum_range_succ]

/-- On validated parameters each per-step tempo `a + s*k` is positive. -/
lemma stepTempo_pos (p : PracticeParams) (hp : validParams p) (k : ℕ) :
    0 < p.a + p.s * (k : ℚ) := by
  obtain ⟨hs, ha, _⟩ := hp
  have : (0:ℚ) ≤ p.s * (k : ℚ) := mul_nonneg hs.le (by positivity)
  linarith

/-- On validated parameters the time constant `C = 60*B*R` is positive. -/
lemma calcC_pos (p : PracticeParams) (hp : validParams p) : 0 < calcC p := by
  obtain ⟨_, _, _, _, hB, hR, _⟩ := hp
  unfold calcC calcK
  positivity

/-- On validated parameters every element of `stepTimes` is positive. -/
lemma stepTimes_pos (p : PracticeParams) (hp : validParams p) :
    ∀ x ∈ stepTimes p, 0 < x := by
  intro x hx
  rw [stepTimes, List.mem_map] at hx
  obtain ⟨k, _, rfl⟩ := hx
  exact div_pos (calcC_pos p hp) (stepTempo_pos p hp k)

/-- On validated parameters `stepTimes` is nonempty. -/
lemma stepTimes_ne_nil (p : PracticeParams) (hp : validParams p) :
    stepTimes p ≠ [] := by
  rw [stepTimes]
  simp [List.range_eq_nil, stepCount_eq p hp]

/-- On validated parameters `exactSeconds` is positive. -/
lemma totalExact_pos (p : PracticeParams) (hp : validParams p) :
    0 < totalExact p := by
  rw [totalExact, kahanSum_eq_sum]
  exact mul_pos (List.sum_pos _ (stepTimes_pos p hp) (stepTimes_ne_nil p hp))
    hp.2.2.2.2.2.2

/-- On validated parameters the actual end tempo `b' = a + n*s` is at least
`a`, hence positive. -/
lemma calcBPrime_ge_a (p : PracticeParams) (hp : validParams p) :
    p.a ≤ calcBPrime p := by
  rw [calcBPrime]
  have hn : (0:ℚ) ≤ (calcN p : ℚ) := by
    exact_mod_cast calcN_nonneg p hp
  nlinarith [hp.1]

/-- On validated parameters `approxSeconds` is positive. -/
lemma totalApprox_pos (p : PracticeParams) (hp : validParams p) :
    0 < totalApprox p := by
  have ha := hp.2.1
  have hbp : 0 < calcBPrime p := lt_of_lt_of_le ha (calcBPrime_ge_a p hp)
  have hS : 0 < calcS p := by rw [calcS]; linarith
  have hP : 0 < calcP p := by rw [calcP]; exact mul_pos ha hbp
  have hti : 0 ≤ termIntegral p := by
    rw [termIntegral]
    have hn : (0:ℚ) ≤ (calcN p : ℚ) := by exact_mod_cast calcN_nonneg p hp
    have hnum : (0:ℚ) ≤ 4 * (calcN p : ℚ) * calcS p := by positivity
    have hden : (0:ℚ) < calcS p * calcS p + 4 * calcP p := by positivity
    exact div_nonneg hnum hden.le
  have htc : 0 < termCorrection p := by
    rw [termCorrection]
    positivity
  rw [totalApprox]
  have hC := calcC_pos p hp
  have hN := hp.2.2.2.2.2.2
  positivity

/-- C2: `calculateTempoPracticeTime` returns an error iff a constraint is
violated; each violated constraint (in guard order) yields its own
distinguishable error before any computation; and on valid input a complete
result is returned with positive `exactSeconds` and `approxSeconds`
(in exact arithmetic: every denominator used is nonzero, no NaN). -/
theorem calc_validation_complete (p : PracticeParams) :
    ((∃ e, calculateTempoPracticeTime p = .error e) ↔ ¬ validParams p)
    ∧ (p.s ≤ 0 → calculateTempoPracticeTime p = .error .nonPositiveStep)
    ∧ (0 < p.s → p.a ≤ 0 ∨ p.b ≤ 0 →
        calculateTempoPracticeTime p = .error .nonPositiveTempo)
    ∧ (0 < p.s → 0 < p.a → 0 < p.b → p.b ≤ p.a →
        calculateTempoPracticeTime p = .error .startNotBelowTarget)
    ∧ (0 < p.s → 0 < p.a → 0 < p.b → p.a < p.b →
        p.B ≤ 0 ∨ p.R ≤ 0 ∨ p.N ≤ 0 →
        calculateTempoPracticeTime p = .error .nonPositiveCount)
    ∧ (validParams p → ∃ r, calculateTempoPracticeTime p = .ok r ∧
        0 < r.results.exactSeconds ∧ 0 < r.results.approxSeconds) := by
  refine ⟨⟨?_, ?_⟩, ?_, ?_, ?_, ?_, ?_⟩
  · rintro ⟨e, he⟩ hv
    rw [calc_ok p hv] at he
    exact Except.noConfusion he
  · intro hnv
    unfold calculateTempoPracticeTime
    split_ifs with h1 h2 h3 h4
    · exact ⟨_, rfl⟩
    · exact ⟨_, rfl⟩
    · exact ⟨_, rfl⟩
    · exact ⟨_, rfl⟩
    · exfalso
      apply hnv
      push_neg at h1 h2 h3 h4
      exact ⟨h1, h2.1, h2.2, h3, h4.1, h4.2.1, h4.2.2⟩
  · intro h1
    unfold calculateTempoPracticeTime
    rw [if_pos h1]
  · intro h1 h2
    unfold calculateTempoPracticeTime
    rw [if_neg (not_le.mpr h1), if_pos h2]
  · intro h1 ha hb h3
    unfold calculateTempoPracticeTime
    rw [if_neg (not_le.mpr h1), if_neg (by push_neg; exact ⟨ha, hb⟩),
      if_pos h3]
  · intro h1 ha hb hab h4
    unfold calculateTempoPracticeTime
    rw [if_neg (not_le.mpr h1), if_neg (by push_neg; exact ⟨ha, hb⟩),
      if_neg (not_le.mpr hab), if_pos h4]
  · intro hv
    exact ⟨_, calc_ok p hv, totalExact_pos p hv, totalApprox_pos p hv⟩

/-- Witness for C2: with `s = 0` the calculator reports the non-positive-step
error, and at the valid scenario `a=60, b=120, s=10, B=4, R=2, N=1` it
returns a complete positive result. -/
theorem calc_validation_complete_witness :
    calculateTempoPracticeTime ⟨60, 120, 0, 4, 2, 1⟩ = .error .nonPositiveStep
    ∧ ∃ r, calculateTempoPracticeTime ⟨60, 120, 10, 4, 2, 1⟩ = .ok r ∧
        0 < r.results.exactSeconds ∧ 0 < r.results.approxSeconds := by
  constructor
  · exact (calc_validation_complete ⟨60, 120, 0, 4, 2, 1⟩).2.1 (by norm_num)
  · exact (calc_validation_complete ⟨60, 120, 10, 4, 2, 1⟩).2.2.2.2.2
      (by decide)

/-- C4: on every validated input, `approxSeconds` equals
`N * C * (4nS/(S² + 4P) + S/(2P))` with `S = a + b'`, `P = a * b'`, and
`errorRate` is the signed relative error `(approx - exact)/exact * 100`. -/
theorem calc_approx_and_errorRate (p : PracticeParams) (hp : validParams p) :
    ∃ r, calculateTempoPracticeTime p = .ok r ∧
      r.results.approxSeconds =
        p.N * (60 * (p.B * p.R)) *
          (4 * (calcN p : ℚ) * (p.a + calcBPrime p) /
              ((p.a + calcBPrime p) ^ 2 + 4 * (p.a * calcBPrime p))
            + (p.a + calcBPrime p) / (2 * (p.a * calcBPrime p))) ∧
      r.results.errorRate =
        (r.results.approxSeconds - r.results.exactSeconds) /
          r.results.exactSeconds * 100 := by
  refine ⟨_, calc_ok p hp, ?_, ?_⟩
  · show totalApprox p = _
    rw [totalApprox, termIntegral, termCorrection, calcC, calcK, calcS, calcP,
      pow_two]
    ring
  · rfl

/-- Witness for C4 at `a=60, b=120, s=10, B=4, R=2, N=1`. -/
theorem calc_approx_and_errorRate_witness :
    validParams ⟨60, 120, 10, 4, 2, 1⟩ ∧
    ∃ r, calculateTempoPracticeTime ⟨60, 120, 10, 4, 2, 1⟩ = .ok r ∧
      r.results.approxSeconds =
        (1 : ℚ) * (60 * (4 * 2)) *
          (4 * (calcN ⟨60, 120, 10, 4, 2, 1⟩ : ℚ) *
              (60 + calcBPrime ⟨60, 120, 10, 4, 2, 1⟩) /
              ((60 + calcBPrime ⟨60, 120, 10, 4, 2, 1⟩) ^ 2 +
                4 * (60 * calcBPrime ⟨60, 120, 10, 4, 2, 1⟩))
            + (60 + calcBPrime ⟨60, 120, 10, 4, 2, 1⟩) /
              (2 * (60 * calcBPrime ⟨60, 120, 10, 4, 2, 1⟩))) ∧
      r.results.errorRate =
        (r.results.approxSeconds - r.results.exactSeconds) /
          r.results.exactSeconds * 100 := by
  exact ⟨by decide, calc_approx_and_errorRate ⟨60, 120, 10, 4, 2, 1⟩ (by decide)⟩

/-- C5: on every validated input the reported `actualEndTempo` `b' = a + n*s`
satisfies `a ≤ b' ≤ b`, with `b' = b` iff `b - a` is an integer multiple
of `s`. -/
theorem actualEndTempo_range (p : PracticeParams) (hp : validParams p) :
    ∃ r, calculateTempoPracticeTime p = .ok r ∧
      r.metadata.actualEndTempo = p.a + (calcN p : ℚ) * p.s ∧
      p.a ≤ r.metadata.actualEndTempo ∧ r.metadata.actualEndTempo ≤ p.b ∧
      (r.metadata.actualEndTempo = p.b ↔ ∃ m : ℤ, p.b - p.a = (m : ℚ) * p.s) := by
  obtain ⟨hs, ha, hb, hab, _⟩ := id hp
  have hsne : p.s ≠ 0 := ne_of_gt hs
  refine ⟨_, calc_ok p hp, rfl, calcBPrime_ge_a p hp, ?_, ?_⟩
  · show calcBPrime p ≤ p.b
    have hfl : (calcN p : ℚ) ≤ (p.b - p.a) / p.s := Int.floor_le _
    have : (calcN p : ℚ) * p.s ≤ (p.b - p.a) / p.s * p.s :=
      mul_le_mul_of_nonneg_right hfl hs.le
    rw [div_mul_cancel₀ _ hsne] at this
    rw [calcBPrime]
    linarith
  · show calcBPrime p = p.b ↔ _
    constructor
    · intro h
      refine ⟨calcN p, ?_⟩
      rw [calcBPrime] at h
      linarith
    · rintro ⟨m, hm⟩
      have hq : (p.b - p.a) / p.s = (m : ℚ) := by
        rw [hm, mul_div_cancel_right₀ _ hsne]
      have hn : calcN p = m := by
        rw [calcN, hq, Int.floor_intCast]
      rw [calcBPrime, hn]
      linarith

/-- Witness for C5 at `a=60, b=120, s=10, B=4, R=2, N=1`: the end tempo is
between 60 and 120 and `b - a = 60` is an exact multiple of `s = 10`. -/
theorem actualEndTempo_range_witness :
    validParams ⟨60, 120, 10, 4, 2, 1⟩ ∧
    ∃ r, calculateTempoPracticeTime ⟨60, 120, 10, 4, 2, 1⟩ = .ok r ∧
      r.metadata.actualEndTempo =
        60 + (calcN ⟨60, 120, 10, 4, 2, 1⟩ : ℚ) * 10 ∧
      60 ≤ r.metadata.actualEndTempo ∧ r.metadata.actualEndTempo ≤ 120 ∧
      (r.metadata.actualEndTempo = 120 ↔
        ∃ m : ℤ, (120 : ℚ) - 60 = (m : ℚ) * 10) := by
  exact ⟨by decide, actualEndTempo_range ⟨60, 120, 10, 4, 2, 1⟩ (by decide)⟩

/-- C10: validation never checks integrality of `B`, `R`, `N`: any input
with `s > 0`, `0 < a < b` and positive (possibly fractional) `B`, `R`, `N`
passes and yields a complete result with `K = B*R` taken as-is. -/
theorem calc_accepts_fractional_counts (p : PracticeParams)
    (hs : 0 < p.s) (ha : 0 < p.a) (hab : p.a < p.b)
    (hB : 0 < p.B) (hR : 0 < p.R) (hN : 0 < p.N) :
    ∃ r, calculateTempoPracticeTime p = .ok r ∧
      r.metadata.totalBeatsPerStep = p.B * p.R := by
  have hv : validParams p := ⟨hs, ha, lt_trans ha hab, hab, hB, hR, hN⟩
  exact ⟨_, calc_ok p hv, rfl⟩

/-- Witness for C10 at the fractional input `B = 1/2`. -/
theorem calc_accepts_fractional_counts_witness :
    ∃ r, calculateTempoPracticeTime ⟨60, 120, 10, 1/2, 2, 1⟩ = .ok r ∧
      r.metadata.totalBeatsPerStep = (1/2 : ℚ) * 2 := by
  exact calc_accepts_fractional_counts ⟨60, 120, 10, 1/2, 2, 1⟩
    (by norm_num) (by norm_num) (by norm_num) (by norm_num) (by norm_num)
    (by norm_num)

/-- Fact: `nextNote` advances `nextNoteTime` by `(60/tempo)/subdivision` in every
branch. -/
lemma nextNote_time (m : MetroState) :
    (Metronome.nextNote m).nextNoteTime =
      m.nextNoteTime + 60 / m.tempo / (m.subdivision : ℚ) := by
  simp only [Metronome.nextNote]
  split_ifs <;> rfl

/-- Fact: `nextNote` never changes the configuration fields. -/
lemma nextNote_config (m : MetroState) :
    (Metronome.nextNote m).beatsPerBar = m.beatsPerBar ∧
    (Metronome.nextNote m).subdivision = m.subdivision ∧
    (Metronome.nextNote m).progressionStep = m.progressionStep ∧
    (Metronome.nextNote m).targetTempo = m.targetTempo ∧
    (Metronome.nextNote m).progressionEnabled = m.progressionEnabled := by
  simp only [Metronome.nextNote]
  split_ifs <;> exact ⟨rfl, rfl, rfl, rfl, rfl⟩

/-- Fact: `nextNote` preserves the engine invariants. -/
lemma metroInv_nextNote (m : MetroState) (h : MetroInv m) :
    MetroInv (Metronome.nextNote m) := by
  obtain ⟨h1, h2, h3, h4, h5, h6⟩ := h
  have hsub : 0 < m.subdivision := lt_of_le_of_lt h1 h2
  simp only [Metronome.nextNote]
  split_ifs with hc1 hc2 hc3 hc4
  · refine ⟨le_refl 0, hsub, le_refl 0, fun hb => hb, ?_, h6⟩
    show 0 < jsMin (m.tempo + m.progressionStep) m.targetTempo
    rw [jsMin]
    split_ifs
    · linarith
    · linarith [hc4.2]
  · exact ⟨le_refl 0, hsub, le_refl 0, fun hb => hb, h5, h6⟩
  · exact ⟨le_refl 0, hsub, le_refl 0, fun hb => hb, h5, h6⟩
  · refine ⟨le_refl 0, hsub, ?_, fun hb => ?_, h5, h6⟩
    · show (0:ℤ) ≤ m.currentBeatInBar + 1
      omega
    · show m.currentBeatInBar + 1 < m.beatsPerBar
      omega
  · refine ⟨?_, ?_, h3, h4, h5, h6⟩
    · show (0:ℤ) ≤ m.currentSubdivision + 1
      omega
    · show m.currentSubdivision + 1 < m.subdivision
      omega

/-- Every allowed operation preserves the engine invariants. -/
lemma metroInv_applyOp (m : MetroState) (op : MOp) (h : MetroInv m)
    (hop : okOp m op = true) : MetroInv (applyOp m op) := by
  obtain ⟨h1, h2, h3, h4, h5, h6⟩ := h
  cases op with
  | next => exact metroInv_nextNote m ⟨h1, h2, h3, h4, h5, h6⟩
  | setTempoOp bpm =>
      have : 0 < bpm := by simpa [okOp] using hop
      exact ⟨h1, h2, h3, h4, this, h6⟩
  | setBeatsOp v =>
      have : 0 < v → m.currentBeatInBar < v := by
        have hv : v ≤ 0 ∨ m.currentBeatInBar < v := by simpa [okOp] using hop
        intro h0
        rcases hv with hv | hv
        · omega
        · exact hv
      exact ⟨h1, h2, h3, this, h5, h6⟩
  | setSubOp v =>
      have : m.currentSubdivision < v := by simpa [okOp] using hop
      exact ⟨h1, this, h3, h4, h5, h6⟩
  | startOp t =>
      simp only [applyOp, Metronome.start]
      split_ifs
      · exact ⟨h1, h2, h3, h4, h5, h6⟩
      · exact ⟨le_refl 0, lt_of_le_of_lt h1 h2, le_refl 0, fun hb => hb,
          h5, h6⟩
  | stopOp => exact ⟨h1, h2, h3, h4, h5, h6⟩

/-- The invariants hold after any allowed run. -/
lemma metroInv_runOps (m : MetroState) (ops : List MOp) (h : MetroInv m)
    (hops : okRun m ops = true) : MetroInv (runOps m ops) := by
  induction ops generalizing m with
  | nil => exact h
  | cons op rest ih =>
      rw [okRun, Bool.and_eq_true] at hops
      exact ih (applyOp m op) (metroInv_applyOp m op h hops.1) hops.2

/-- The initial engine state satisfies the invariants. -/
lemma metroInv_init : MetroInv Metronome.init := by
  refine ⟨le_refl 0, ?_, le_refl 0, fun _ => ?_, ?_, ?_⟩ <;> norm_num [Metronome.init]

/-- Under the invariants, `nextNote` strictly increases `nextNoteTime`. -/
lemma nextNoteTime_strict_mono (m : MetroState) (h : MetroInv m) :
    m.nextNoteTime < (Metronome.nextNote m).nextNoteTime := by
  obtain ⟨h1, h2, _, _, h5, _⟩ := h
  rw [nextNote_time]
  have hsub : (0:ℚ) < (m.subdivision : ℚ) := by
    have : 0 < m.subdivision := lt_of_le_of_lt h1 h2
    exact_mod_cast this
  have : 0 < 60 / m.tempo / (m.subdivision : ℚ) :=
    div_pos (div_pos (by norm_num) h5) hsub
  linarith

/-- C6 counterexample: from a freshly started engine, `setSubdivision 2`,
one `nextNote`, then `setSubdivision 1` (all setter values positive, tempo
untouched) reaches a state with `currentSubdivision = 1 = subdivision`,
violating `currentSubdivision < subdivision`. -/
theorem metro_invariant_counterexample :
    (runOps (Metronome.start Metronome.init 0)
        [MOp.setSubOp 2, MOp.next, MOp.setSubOp 1]).currentSubdivision = 1 ∧
    (runOps (Metronome.start Metronome.init 0)
        [MOp.setSubOp 2, MOp.next, MOp.setSubOp 1]).subdivision = 1 ∧
    ¬ ((runOps (Metronome.start Metronome.init 0)
        [MOp.setSubOp 2, MOp.next, MOp.setSubOp 1]).currentSubdivision <
      (runOps (Metronome.start Metronome.init 0)
        [MOp.setSubOp 2, MOp.next, MOp.setSubOp 1]).subdivision) := by
  norm_num [runOps, applyOp, Metronome.start, Metronome.startPlayback,
    Metronome.init, Metronome.setSubdivision, Metronome.nextNote, jsMin]

/-- C6 (amended): from a freshly started engine, along any operation
sequence whose `setTempo` values are positive and whose `setSubdivision` /
positive `setBeatsPerBar` values exceed the corresponding current counter
(`okOp`), the counter and tempo invariants hold in the reached state, and a
further `nextNote` strictly increases `nextNoteTime`. -/
theorem metro_reachable_invariants (t : ℚ) (ops : List MOp)
    (hops : okRun (Metronome.start Metronome.init t) ops = true) :
    MetroInv (runOps (Metronome.start Metronome.init t) ops) ∧
    (runOps (Metronome.start Metronome.init t) ops).nextNoteTime <
      (Metronome.nextNote
        (runOps (Metronome.start Metronome.init t) ops)).nextNoteTime := by
  have hstart : MetroInv (Metronome.start Metronome.init t) :=
    metroInv_applyOp Metronome.init (.startOp t) metroInv_init rfl
  have hinv := metroInv_runOps _ ops hstart hops
  exact ⟨hinv, nextNoteTime_strict_mono _ hinv⟩

/-- Witness for C6 (amended): a concrete allowed run mixing `nextNote`,
setters, `stop` and `start`. -/
theorem metro_reachable_invariants_witness :
    okRun (Metronome.start Metronome.init 0)
      [MOp.next, MOp.setTempoOp 100, MOp.setSubOp 3, MOp.next, MOp.stopOp,
        MOp.startOp 5, MOp.next] = true ∧
    (MetroInv (runOps (Metronome.start Metronome.init 0)
        [MOp.next, MOp.setTempoOp 100, MOp.setSubOp 3, MOp.next, MOp.stopOp,
          MOp.startOp 5, MOp.next]) ∧
      (runOps (Metronome.start Metronome.init 0)
        [MOp.next, MOp.setTempoOp 100, MOp.setSubOp 3, MOp.next, MOp.stopOp,
          MOp.startOp 5, MOp.next]).nextNoteTime <
      (Metronome.nextNote (runOps (Metronome.start Metronome.init 0)
        [MOp.next, MOp.setTempoOp 100, MOp.setSubOp 3, MOp.next, MOp.stopOp,
          MOp.startOp 5, MOp.next])).nextNoteTime) := by
  have hops : okRun (Metronome.start Metronome.init 0)
      [MOp.next, MOp.setTempoOp 100, MOp.setSubOp 3, MOp.next, MOp.stopOp,
        MOp.startOp 5, MOp.next] = true := by
    norm_num [okRun, okOp, runOps, applyOp, Metronome.start,
      Metronome.startPlayback, Metronome.init, Metronome.setSubdivision,
      Metronome.setTempo, Metronome.stop, Metronome.nextNote, jsMin]
  exact ⟨hops, metro_reachable_invariants 0 _ hops⟩

/-- C7 counterexample: in the scenario `step=5, bars=2, target=140`,
starting tempo 120, after 4 completed bars (16 `nextNote` calls at 4 beats
per bar, subdivision 1) the tempo is 130, not the claimed 125 — the tempo
already rises to 125 after 2 bars, when the bar counter first reaches
`progressionBars = 2`. -/
theorem progression_counterexample :
    (Metronome.nextNote^[16] progState).tempo = 130 ∧
    ¬ (Metronome.nextNote^[16] progState).tempo = 125 := by
  norm_num [Function.iterate_succ_apply', Metronome.nextNote, progState,
    Metronome.init, Metronome.start, Metronome.startPlayback, jsMin]

/-- Fact: `nextNote` keeps the tempo at or below the target tempo. -/
lemma nextNote_tempo_le_target (m : MetroState)
    (h : m.tempo ≤ m.targetTempo) :
    (Metronome.nextNote m).tempo ≤ (Metronome.nextNote m).targetTempo := by
  simp only [Metronome.nextNote]
  split_ifs with hc1 hc2 hc3 hc4
  · show jsMin (m.tempo + m.progressionStep) m.targetTempo ≤ m.targetTempo
    rw [jsMin]
    split_ifs with hle
    · exact hle
    · exact le_refl _
  all_goals exact h

/-- C7 (amended): every bar completion steps the bar counter; when it
reaches `progressionBars` the tempo rises by `progressionStep` clamped to
`progressionTarget`.  Concretely (`step=5, bars=2, target=140`, start 120):
after 2 completed bars the tempo is 125, after 4 bars 130, after 8 bars
140, and it never exceeds 140 however many bars elapse. -/
theorem progression_behavior :
    (Metronome.nextNote^[8] progState).tempo = 125 ∧
    (Metronome.nextNote^[16] progState).tempo = 130 ∧
    (Metronome.nextNote^[32] progState).tempo = 140 ∧
    ∀ k : ℕ, (Metronome.nextNote^[k] progState).tempo ≤ 140 := by
  refine ⟨?_, ?_, ?_, ?_⟩
  · norm_num [Function.iterate_succ_apply', Metronome.nextNote, progState,
      Metronome.init, Metronome.start, Metronome.startPlayback, jsMin]
  · norm_num [Function.iterate_succ_apply', Metronome.nextNote, progState,
      Metronome.init, Metronome.start, Metronome.startPlayback, jsMin]
  · norm_num [Function.iterate_succ_apply', Metronome.nextNote, progState,
      Metronome.init, Metronome.start, Metronome.startPlayback, jsMin]
  · have key : ∀ k : ℕ,
        (Metronome.nextNote^[k] progState).tempo ≤
          (Metronome.nextNote^[k] progState).targetTempo ∧
        (Metronome.nextNote^[k] progState).targetTempo = 140 := by
      intro k
      induction k with
      | zero =>
          constructor <;>
            norm_num [progState, Metronome.init, Metronome.start,
              Metronome.startPlayback]
      | succ n ih =>
          rw [Function.iterate_succ_apply']
          exact ⟨nextNote_tempo_le_target _ ih.1,
            ((nextNote_config _).2.2.2.1).trans ih.2⟩
    intro k
    have := key k
    rw [this.2] at this
    exact this.1

/-- Fact: `nextNote` does not change `scheduleAheadTime`. -/
lemma nextNote_scheduleAheadTime (m : MetroState) :
    (Metronome.nextNote m).scheduleAheadTime = m.scheduleAheadTime := by
  simp only [Metronome.nextNote]
  split_ifs <;> rfl

/-- C8: with `beatsPerBar = 0`, no scheduled note is ever flagged
`isAccent`, for every counter combination and every run of the scheduling
loop. -/
theorem no_accent_when_beatsPerBar_zero (m : MetroState)
    (h : m.beatsPerBar = 0) :
    (∀ beatNumber subdivisionNumber time,
      (scheduleNote m beatNumber subdivisionNumber time).isAccent = false) ∧
    ∀ currentTime fuel note, note ∈ scheduler m currentTime fuel →
      note.isAccent = false := by
  constructor
  · intro beatNumber subdivisionNumber time
    simp [scheduleNote, h]
  · intro currentTime fuel
    induction fuel generalizing m with
    | zero =>
        intro note hnote
        simp [scheduler] at hnote
    | succ n ih =>
        intro note hnote
        rw [scheduler] at hnote
        split_ifs at hnote with hw
        · rcases List.mem_cons.mp hnote with hn | hn
          · rw [hn]
            simp [scheduleNote, h]
          · exact ih (Metronome.nextNote m)
              (((nextNote_config m).1).trans h) note hn
        · simp at hnote

/-- Witness for C8 at the initial state with `beatsPerBar` set to 0: the
note for counters (0,0) is unaccented, and so is every note of a concrete
scheduler run. -/
theorem no_accent_when_beatsPerBar_zero_witness :
    ({ Metronome.init with beatsPerBar := 0 } : MetroState).beatsPerBar = 0 ∧
    (scheduleNote { Metronome.init with beatsPerBar := 0 } 0 0
      0).isAccent = false := by
  have h : ({ Metronome.init with beatsPerBar := 0 } : MetroState).beatsPerBar
      = 0 := rfl
  exact ⟨h, (no_accent_when_beatsPerBar_zero _ h).1 0 0 0⟩

/-- The inter-tap intervals of `a :: l` telescope to `last - a`. -/
lemma diffsInt_sum (l : List ℤ) : ∀ a : ℤ,
    (diffsInt (a :: l)).sum = l.getLastD a - a := by
  induction l with
  | nil => intro a; simp [diffsInt]
  | cons b r ih =>
      intro a
      rw [diffsInt, List.sum_cons, ih b, List.getLastD_cons]
      ring

/-- The list `a :: l` has `l.length` inter-tap intervals. -/
lemma diffsInt_length (l : List ℤ) : ∀ a : ℤ,
    (diffsInt (a :: l)).length = l.length := by
  induction l with
  | nil => intro a; rfl
  | cons b r ih => intro a; rw [diffsInt, List.length_cons, ih b]; rfl

/-- With at least two taps, the raw estimate is
`round(60000 * (count-1) / (last - first))`. -/
lemma tapBpm_eq (a : ℤ) (l : List ℤ) :
    tapBpm (a :: l) =
      jsRound (60000 * (l.length : ℚ) / ((l.getLastD a - a : ℤ) : ℚ)) := by
  rw [tapBpm, diffsInt_sum, diffsInt_length, div_div_eq_mul_div]

/-- The tap history never grows beyond 4 timestamps. -/
lemma tapHistory_length (ts : List ℤ) (now : ℤ) (h : ts.length ≤ 4) :
    (tapHistory ts now).length ≤ 4 := by
  have key : ∀ l : List ℤ, l.length ≤ 4 →
      (if 4 < (l ++ [now]).length then (l ++ [now]).tail
        else l ++ [now]).length ≤ 4 := by
    intro l hl
    split_ifs with h4
    · simp only [List.length_tail, List.length_append, List.length_cons,
        List.length_nil] at h4 ⊢
      omega
    · simp only [List.length_append, List.length_cons, List.length_nil]
        at h4 ⊢
      omega
  rw [tapHistory]
  cases hts : ts.getLast? with
  | none => exact key ts h
  | some last =>
      by_cases hgap : 2000 < now - last
      · simp only [if_pos hgap]
        exact key [] (by simp)
      · simp only [if_neg hgap]
        exact key ts h

/-- C9 (amended): a tap with gap over 2000 ms resets the history to a fresh
single-tap estimate; at most 4 timestamps are kept; with at least two taps
the raw estimate is `round(60000 / meanInterval) =
round(60000*(count-1)/(last-first))`; the single-file engine applies it
clamped into 30–250, while the TypeScript `MetronomeUI` applies it only
when already within 30–250 and otherwise leaves the tempo unchanged. -/
theorem tapTempo_behavior (ts : List ℤ) (tempo now : ℤ) :
    (∀ last, ts.getLast? = some last → 2000 < now - last →
      tapStep (ts, tempo) now = ([now], tempo)) ∧
    (ts.length ≤ 4 → (tapStep (ts, tempo) now).1.length ≤ 4) ∧
    (∀ a l, tapHistory ts now = a :: l → l ≠ [] →
      (tapStep (ts, tempo) now).2 =
        min (max (jsRound (60000 * (l.length : ℚ) /
          ((l.getLastD a - a : ℤ) : ℚ))) 30) 250) ∧
    (∀ a l, tapHistory ts now = a :: l → l ≠ [] →
      30 ≤ tapBpm (a :: l) → tapBpm (a :: l) ≤ 250 →
      (tapStepUI (ts, tempo) now).2 =
        min (max (jsRound (60000 * (l.length : ℚ) /
          ((l.getLastD a - a : ℤ) : ℚ))) 30) 250) ∧
    (∀ a l, tapHistory ts now = a :: l → l ≠ [] →
      ¬ (30 ≤ tapBpm (a :: l) ∧ tapBpm (a :: l) ≤ 250) →
      (tapStepUI (ts, tempo) now).2 = tempo) := by
  have hfst : (tapStep (ts, tempo) now).1 = tapHistory ts now := by
    rw [tapStep]
    split_ifs <;> rfl
  refine ⟨?_, ?_, ?_, ?_, ?_⟩
  · intro last hlast hgap
    have hh : tapHistory ts now = [now] := by
      rw [tapHistory]
      simp only [hlast, if_pos hgap]
      norm_num
    rw [tapStep, hh]
    norm_num
  · intro h
    rw [hfst]
    exact tapHistory_length ts now h
  · intro a l hh hl
    have hlen : 2 ≤ (a :: l).length := by
      simp only [List.length_cons]
      have := List.length_pos.mpr hl
      omega
    rw [tapStep, hh]
    rw [if_pos hlen]
    show min (max (tapBpm (a :: l)) 30) 250 = _
    rw [tapBpm_eq]
  · intro a l hh hl h30 h250
    have hlen : 2 ≤ (a :: l).length := by
      simp only [List.length_cons]
      have := List.length_pos.mpr hl
      omega
    rw [tapStepUI, hh]
    rw [if_pos hlen, if_pos ⟨h30, h250⟩]
    show min (max (tapBpm (a :: l)) 30) 250 = _
    rw [tapBpm_eq]
  · intro a l hh hl hrange
    have hlen : 2 ≤ (a :: l).length := by
      simp only [List.length_cons]
      have := List.length_pos.mpr hl
      omega
    rw [tapStepUI, hh]
    rw [if_pos hlen, if_neg hrange]

/-- C9 counterexample: two taps 100 ms apart give the raw estimate 600 BPM;
clamping (as the claim states) would set the tempo to 250, but the
`MetronomeUI` tap handler leaves the tempo at 120 because the estimate is
out of range. -/
theorem tapTempo_counterexample :
    (List.foldl tapStepUI ([], 120) [0, 100]).2 = 120 ∧
    min (max (jsRound ((60000 : ℚ) / ((100 : ℚ) / 1))) 30) 250 = 250 ∧
    (List.foldl tapStepUI ([], 120) [0, 100]).2 ≠ 250 := by
  refine ⟨?_, ?_, ?_⟩ <;>
    norm_num [List.foldl, tapStepUI, tapHistory, tapBpm, diffsInt, jsRound,
      List.getLast?]

/-- Witness for C9 at taps 0, 500, 1000 ms (two 500 ms intervals): the
history is `[0, 500, 1000]` and the engine sets the tempo to the clamped
rounded estimate. -/
theorem tapTempo_behavior_witness :
    tapHistory [0, 500] 1000 = 0 :: [500, 1000] ∧
    (tapStep ([0, 500], 120) 1000).2 =
      min (max (jsRound (60000 * ((([500, 1000] : List ℤ).length : ℚ)) /
        ((([500, 1000].getLastD 0 - 0 : ℤ)) : ℚ))) 30) 250 := by
  have hh : tapHistory [0, 500] 1000 = 0 :: [500, 1000] := by
    norm_num [tapHistory, List.getLast?]
  exact ⟨hh, (tapTempo_behavior [0, 500] 120 1000).2.2.1 0 [500, 1000] hh
    (by simp)⟩
